import Mathlib

/-!
Verification development for the `notion_obsidian_sync` package: a shallow
embedding, in Lean 4, of the converters, conflict resolver, sync loops,
Notion watcher, and client helpers, together with theorems settling the
specification claims about them.

Python strings are modelled as `List Char`; `String` is used at the
boundaries.  Python dictionaries whose field sets are fixed by the code
are modelled as structures; property dictionaries with dynamic keys are
modelled as association lists with Python `dict` update semantics.
Exceptions are modelled with `Except`: each operation that can raise
returns `Except PyErr α`, and Python `try/except Exception` blocks become
a `match` on that result.
-/

namespace NOSync

/-- Errors a Python expression can raise in the modelled fragment. -/
inductive PyErr where
  /-- `NameError`: a global name is referenced but never bound
      (e.g. `aiofiles` in `conflict_resolver/resolver.py`, which is used
      but never imported in that module). -/
  | nameError
  /-- `KeyError`: subscripting a dict with a missing key (`page['title']`). -/
  | keyError
  /-- An I/O or transport failure raised by a file or network operation. -/
  | ioError
  deriving DecidableEq, Repr

/-! ## Python string primitives -/

/-- Characters matched by the regex class `\s` / stripped by `str.strip()`
(ASCII fragment). -/
def isPyWs (c : Char) : Bool :=
  c = ' ' || c = '\t' || c = '\n' || c = '\r' || c = '\x0b' || c = '\x0c'

/-- Python `str.strip()` on the left. -/
def pyLStrip (s : List Char) : List Char := s.dropWhile isPyWs

/-- Python `str.strip()` on the right. -/
def pyRStrip (s : List Char) : List Char := (s.reverse.dropWhile isPyWs).reverse

/-- Python `str.strip()`. -/
def pyStrip (s : List Char) : List Char := pyRStrip (pyLStrip s)

/-- Python's substring test `sub in s`. -/
def containsSub (s sub : List Char) : Bool :=
  match s with
  | [] => sub.isPrefixOf []
  | _ :: rest => sub.isPrefixOf s || containsSub rest sub

/-- Python `str.startswith`. -/
def pyStartsWith (s pre : List Char) : Bool := pre.isPrefixOf s

/-- Python `str.split(sep)` for a single-character separator (never returns
an empty list; keeps empty pieces). -/
def pySplitChar (sep : Char) (s : List Char) : List (List Char) :=
  match s with
  | [] => [[]]
  | c :: rest =>
      let r := pySplitChar sep rest
      if c = sep then [] :: r
      else
        match r with
        | [] => [[c]]
        | piece :: more => (c :: piece) :: more

/-- Python `sep.join(pieces)`. -/
def pyJoin (sep : List Char) (pieces : List (List Char)) : List Char :=
  match pieces with
  | [] => []
  | [p] => p
  | p :: rest => p ++ sep ++ pyJoin sep rest

/-- Python `str.lower()` (ASCII). -/
def pyLower (s : List Char) : List Char := s.map Char.toLower

/-- Regex class `\w` (ASCII fragment): letters, digits, underscore. -/
def isWordChar (c : Char) : Bool :=
  ('a' ≤ c && c ≤ 'z') || ('A' ≤ c && c ≤ 'Z') || ('0' ≤ c && c ≤ '9') || c = '_'

/-- Regex class `\d` (ASCII). -/
def isDigitChar (c : Char) : Bool := '0' ≤ c && c ≤ '9'

/-! ## Regex scanners

The converters use a fixed set of regular expressions, all of the shape
`open ([^X]+) close` where the excluded character `X` also starts the
closing delimiter.  For such patterns Python's backtracking is vacuous:
the greedy body is exactly the maximal run of non-`X` characters, after
which the closing delimiter either matches literally or the whole
alternative at this start position fails.  The scanners below implement
exactly that semantics. -/

/-- Try to match `dopen ([^excl]+) dclose` at the start of `s`; on success
return the captured body and the remainder after the match. -/
def delimMatchAt (dopen : List Char) (excl : Char) (dclose : List Char)
    (s : List Char) : Option (List Char × List Char) :=
  if dopen.isPrefixOf s then
    let t := s.drop dopen.length
    let body := t.takeWhile (· ≠ excl)
    if body.isEmpty then none
    else
      let r := t.drop body.length
      if dclose.isPrefixOf r then some (body, r.drop dclose.length) else none
  else none

/-- Fueled worker for `pySubDelim`; the fuel bounds the number of scan
steps (each step consumes at least one character, so `s.length` suffices). -/
def pySubDelimAux (dopen : List Char) (excl : Char) (dclose : List Char)
    (wrapL wrapR : List Char) : Nat → List Char → List Char
  | 0, s => s
  | _ + 1, [] => []
  | fuel + 1, c :: rest =>
      match delimMatchAt dopen excl dclose (c :: rest) with
      | some (body, suffix) =>
          wrapL ++ body ++ wrapR ++ pySubDelimAux dopen excl dclose wrapL wrapR fuel suffix
      | none => c :: pySubDelimAux dopen excl dclose wrapL wrapR fuel rest

/-- Python `re.sub` for a pattern `open ([^X]+) close` with replacement
`wrapL ++ body ++ wrapR` (left-to-right, non-overlapping). -/
def pySubDelim (dopen : List Char) (excl : Char) (dclose : List Char)
    (wrapL wrapR : List Char) (s : List Char) : List Char :=
  pySubDelimAux dopen excl dclose wrapL wrapR s.length s

/-- `re.compile(r'\[\[([^\]]+)\]\]').sub(r'[\1]', s)` — the wikilink
substitution of `ObsidianToNotionConverter`. -/
def subWikilink (s : List Char) : List Char :=
  pySubDelim ['[', '['] ']' [']', ']'] ['['] [']'] s

/-- `re.sub(r'\*\*([^*]+)\*\*', r'\1', s)`. -/
def subBoldStars (s : List Char) : List Char := pySubDelim ['*', '*'] '*' ['*', '*'] [] [] s

/-- `re.sub(r'__([^_]+)__', r'\1', s)`. -/
def subBoldUnders (s : List Char) : List Char := pySubDelim ['_', '_'] '_' ['_', '_'] [] [] s

/-- `re.sub(r'\*([^*]+)\*', r'\1', s)`. -/
def subItalStar (s : List Char) : List Char := pySubDelim ['*'] '*' ['*'] [] [] s

/-- `re.sub(r'_([^_]+)_', r'\1', s)`. -/
def subItalUnder (s : List Char) : List Char := pySubDelim ['_'] '_' ['_'] [] [] s

/-- `re.sub(r'~~([^~]+)~~', r'\1', s)`. -/
def subStrike (s : List Char) : List Char := pySubDelim ['~', '~'] '~' ['~', '~'] [] [] s

/-- `re.sub(r'`([^`]+)`', r'\1', s)` — inline code markers. -/
def subInlineCode (s : List Char) : List Char := pySubDelim ['`'] '`' ['`'] [] [] s

/-- Try to match `\[([^\]]+)\]\(([^)]+)\)` at the start of `s`:
the markdown-link pattern of both converters. -/
def linkMatchAt (s : List Char) : Option (List Char × List Char) :=
  match s with
  | '[' :: t =>
      let body := t.takeWhile (· ≠ ']')
      if body.isEmpty then none
      else
        match t.drop body.length with
        | ']' :: '(' :: u =>
            let url := u.takeWhile (· ≠ ')')
            if url.isEmpty then none
            else
              match u.drop url.length with
              | ')' :: _ => some (body, url)
              | _ => none
        | _ => none
  | _ => none

/-- `markdown_link_pattern.search(s)`: first match of
`\[([^\]]+)\]\(([^)]+)\)`, returning `(group 1, group 2)`. -/
def searchLink (s : List Char) : Option (List Char × List Char) :=
  match s with
  | [] => none
  | _ :: rest =>
      match linkMatchAt s with
      | some r => some r
      | none => searchLink rest

/-- Try to match `!\[([^\]]*)\]\(([^)]+)\)` at the start of `s`
(note: the alt-text group is `*`, so it may be empty). -/
def imageMatchAt (s : List Char) : Option (List Char × List Char) :=
  match s with
  | '!' :: '[' :: t =>
      let alt := t.takeWhile (· ≠ ']')
      match t.drop alt.length with
      | ']' :: '(' :: u =>
          let url := u.takeWhile (· ≠ ')')
          if url.isEmpty then none
          else
            match u.drop url.length with
            | ')' :: _ => some (alt, url)
            | _ => none
      | _ => none
  | _ => none

/-- `image_pattern.search(s)`: first match of `!\[([^\]]*)\]\(([^)]+)\)`. -/
def searchImage (s : List Char) : Option (List Char × List Char) :=
  match s with
  | [] => none
  | _ :: rest =>
      match imageMatchAt s with
      | some r => some r
      | none => searchImage rest

/-! ### Matching `\s+(.+)` with backtracking

Several patterns end in `\s+(.+)` (optionally anchored with `$`).  Python
first lets `\s+` take the maximal whitespace run `W`, then backtracks it one
character at a time while `(.+)` (which cannot cross a newline) fails; the
group is the first-line remainder at the chosen split.  `wsBodyLoop ws rest ℓ`
tries the split after `ℓ` whitespace characters, longest first. -/

/-- Check `(.+)` (and, when `anchored`, the `$` of a non-MULTILINE pattern,
which accepts the end of the string or a single trailing newline) against
`tail`; return the captured group. -/
def bodyMatch (anchored : Bool) (tail : List Char) : Option (List Char) :=
  let body := tail.takeWhile (· ≠ '\n')
  if body.isEmpty then none
  else if anchored then
    match tail.drop body.length with
    | [] => some body
    | ['\n'] => some body
    | _ => none
  else some body

/-- Backtracking loop for `\s+(.+)`: `ws` is the maximal whitespace run,
`rest` what follows it, `ℓ` the number of whitespace characters currently
given to `\s+` (tried from `ws.length` down to 1). -/
def wsBodyLoop (anchored : Bool) (ws rest : List Char) : Nat → Option (List Char)
  | 0 => none
  | ℓ + 1 =>
      match bodyMatch anchored (ws.drop (ℓ + 1) ++ rest) with
      | some body => some body
      | none => wsBodyLoop anchored ws rest ℓ

/-- Match `\s+(.+)` (with optional `$`) at the start of `s`, returning the
`(.+)` group. -/
def wsThenBody (anchored : Bool) (s : List Char) : Option (List Char) :=
  let ws := s.takeWhile isPyWs
  wsBodyLoop anchored ws (s.drop ws.length) ws.length

/-- `re.match(r'^(#{1,6})\s+(.+)$', section)`: heading level and text. -/
def matchHeading (s : List Char) : Option (Nat × List Char) :=
  let hashes := s.takeWhile (· = '#')
  if 1 ≤ hashes.length ∧ hashes.length ≤ 6 then
    match wsThenBody true (s.drop hashes.length) with
    | some body => some (hashes.length, body)
    | none => none
  else none

/-- The bullet characters of the class `[-*+]`. -/
def isBulletChar (c : Char) : Bool := c = '-' || c = '*' || c = '+'

/-- Boolean test `re.match(r'^[-*+]\s+', section)`. -/
def matchesBulleted (s : List Char) : Bool :=
  match s with
  | b :: c :: _ => isBulletChar b && isPyWs c
  | _ => false

/-- Boolean test `re.match(r'^\d+\.\s+', section)`: a maximal digit run,
a literal dot, then whitespace. -/
def matchesNumbered (s : List Char) : Bool :=
  let ds := s.takeWhile isDigitChar
  if ds.isEmpty then false
  else
    match s.drop ds.length with
    | '.' :: c :: _ => isPyWs c
    | _ => false

/-- Boolean test `re.match(r'^[-*+]\s+\[([ x])\]\s+', section)`.  The first
`\s+` is followed by `[`, which is not whitespace, so it is exactly the
maximal whitespace run; likewise for the second `\s+`. -/
def matchesTodo (s : List Char) : Bool :=
  match s with
  | b :: t =>
      if isBulletChar b then
        let ws := t.takeWhile isPyWs
        if ws.isEmpty then false
        else
          match t.drop ws.length with
          | '[' :: m :: ']' :: u =>
              (m = ' ' || m = 'x') &&
                !(u.takeWhile isPyWs).isEmpty
          | _ => false
      else false
  | _ => false

/-- `re.match(r'^[-*+]\s+(.+)', text)`: the item text of a bulleted list. -/
def matchBulletedItem (s : List Char) : Option (List Char) :=
  match s with
  | b :: t => if isBulletChar b then wsThenBody false t else none
  | _ => none

/-- `re.match(r'^\d+\.\s+(.+)', text)`: the item text of a numbered list. -/
def matchNumberedItem (s : List Char) : Option (List Char) :=
  let ds := s.takeWhile isDigitChar
  if ds.isEmpty then none
  else
    match s.drop ds.length with
    | '.' :: t => wsThenBody false t
    | _ => none

/-- `re.match(r'^[-*+]\s+\[([ x])\]\s+(.+)', text)`: checked flag and text
of a to-do item. -/
def matchTodoItem (s : List Char) : Option (Bool × List Char) :=
  match s with
  | b :: t =>
      if isBulletChar b then
        let ws := t.takeWhile isPyWs
        if ws.isEmpty then none
        else
          match t.drop ws.length with
          | '[' :: m :: ']' :: u =>
              if m = ' ' || m = 'x' then
                match wsThenBody false u with
                | some body => some (m = 'x', body)
                | none => none
              else none
          | _ => none
      else none
  | _ => none

/-- Find the first occurrence of `"\n```"` in `s`; return the characters
before it and the remainder after it. -/
def findNlFence : List Char → Option (List Char × List Char)
  | [] => none
  | c :: rest =>
      if pyStartsWith (c :: rest) ['\n', '`', '`', '`'] then
        some ([], rest.drop 3)
      else
        match findNlFence rest with
        | some (before, after) => some (c :: before, after)
        | none => none

/-- `re.compile(r'```(\w*)\n(.*?)\n```', re.DOTALL).match(section)`:
opening fence, greedy `\w*` language (which must be followed directly by a
newline), then the lazy body up to the first `"\n```"`. -/
def matchCodeBlock (s : List Char) : Option (List Char × List Char) :=
  if pyStartsWith s ['`', '`', '`'] then
    let t := s.drop 3
    let lang := t.takeWhile isWordChar
    match t.drop lang.length with
    | '\n' :: u =>
        match findNlFence u with
        | some (body, _) => some (lang, body)
        | none => none
    | _ => none
  else none

/-- Fueled worker for `stripQuoteMarks`.  `atStart` records whether the
current position is a line start (`^` under `re.MULTILINE`): the string
start, or a position directly after a `'\n'` of the original string.  A
match consumes `'>'` and then the maximal whitespace run (the greedy `\s*`,
which may cross newlines); the next `^`-status is determined by the last
consumed character. -/
def stripQuoteAux : Nat → Bool → List Char → List Char
  | 0, _, s => s
  | _ + 1, _, [] => []
  | fuel + 1, atStart, c :: rest =>
      if atStart ∧ c = '>' then
        let ws := rest.takeWhile isPyWs
        let atStart' := ws ≠ [] ∧ ws.getLast? = some '\n'
        stripQuoteAux fuel atStart' (rest.drop ws.length)
      else
        c :: stripQuoteAux fuel (c = '\n') rest

/-- `re.sub(r'^>\s*', '', section, flags=re.MULTILINE)`. -/
def stripQuoteMarks (s : List Char) : List Char :=
  stripQuoteAux (s.length + 1) true s

/-- Scan a whitespace run for the last `'\n'` it contains, returning how
many characters (up to and including that newline) it spans.  This is the
backtracked tail `\s*\n` of the separator pattern `\n\s*\n`: the greedy
`\s*` backs off to the last newline of the whitespace run. -/
def wsRunLastNl (s : List Char) : Option Nat :=
  match s with
  | [] => none
  | c :: rest =>
      if isPyWs c then
        match wsRunLastNl rest with
        | some n => some (n + 1)
        | none => if c = '\n' then some 1 else none
      else none

/-- Fueled worker for `pySplitBlank`: `acc` is the piece being built. -/
def pySplitBlankAux : Nat → List Char → List Char → List (List Char)
  | 0, acc, s => [acc ++ s]
  | _ + 1, acc, [] => [acc]
  | fuel + 1, acc, c :: rest =>
      if c = '\n' then
        match wsRunLastNl rest with
        | some n => acc :: pySplitBlankAux fuel [] (rest.drop n)
        | none => pySplitBlankAux fuel (acc ++ [c]) rest
      else pySplitBlankAux fuel (acc ++ [c]) rest

/-- `re.split(r'\n\s*\n', s)`: split on blank-line separators.  A separator
is a newline followed by a whitespace run that contains at least one more
newline; the greedy `\s*` ends at the last such newline. -/
def pySplitBlank (s : List Char) : List (List Char) :=
  pySplitBlankAux (s.length + 1) [] s

/-! ## `converters/obsidian_to_notion.py` — `ObsidianToNotionConverter`

The write-side Notion payloads the converter builds.  A rich-text object is
the dict
`{"type": "text", "text": {"content": …}, "annotations": {…}, ["href": …]}`;
`underlineF` and `color` are always the defaults the code writes. -/

/-- A write-side Notion rich-text object as built by
`_convert_text_to_rich_text`. -/
structure RichTextOut where
  content : String
  boldF : Bool := false
  italicF : Bool := false
  strikethroughF : Bool := false
  underlineF : Bool := false
  codeF : Bool := false
  color : String := "default"
  href : Option String := none
  deriving DecidableEq, Repr

/-- A write-side Notion block as built by the `_create_*_block` helpers.
The `code` block's rich text carries no annotations in the source, so it is
modelled by its content string plus the language. -/
inductive BlockOut where
  | paragraph (rich : List RichTextOut)
  | heading (level : Nat) (rich : List RichTextOut)
  | codeBlock (content : String) (language : String)
  | quote (rich : List RichTextOut)
  | bulletedListItem (rich : List RichTextOut)
  | numberedListItem (rich : List RichTextOut)
  | toDo (rich : List RichTextOut) (checked : Bool)
  | image (url : String) (caption : Option String)
  | divider
  deriving DecidableEq, Repr

/-- `ObsidianToNotionConverter._convert_text_to_rich_text`: sequential
regex substitution producing a single rich-text object whose annotation
flags are set when the corresponding markers occur anywhere in the text;
a trailing search for a markdown link replaces the whole content with the
first link's text. -/
def convertTextToRichText (text : List Char) : List RichTextOut :=
  -- text = self.wikilink_pattern.sub(r'[\1]', text)
  let t0 := subWikilink text
  -- if '**' in text or '__' in text: bold, strip both marker styles
  let boldF := containsSub t0 ['*', '*'] || containsSub t0 ['_', '_']
  let t1 := if boldF then subBoldUnders (subBoldStars t0) else t0
  -- if '*' in text or '_' in text: italic, strip both marker styles
  let italicF := containsSub t1 ['*'] || containsSub t1 ['_']
  let t2 := if italicF then subItalUnder (subItalStar t1) else t1
  -- if '~~' in text: strikethrough
  let strikeF := containsSub t2 ['~', '~']
  let t3 := if strikeF then subStrike t2 else t2
  -- if '`' in text and not text.startswith('```'): code
  let codeF := containsSub t3 ['`'] && !pyStartsWith t3 ['`', '`', '`']
  let t4 := if codeF then subInlineCode t3 else t3
  -- link_match = self.markdown_link_pattern.search(text); a single
  -- rich-text object is appended in every case
  let run : RichTextOut :=
    match searchLink t4 with
    | some (linkText, linkUrl) =>
        { content := ⟨linkText⟩, boldF := boldF, italicF := italicF,
          strikethroughF := strikeF, codeF := codeF, href := some ⟨linkUrl⟩ }
    | none =>
        { content := ⟨t4⟩, boldF := boldF, italicF := italicF,
          strikethroughF := strikeF, codeF := codeF }
  [run]

/-- `_create_heading_block` (Notion only supports `heading_1..3`). -/
def createHeadingBlock (text : List Char) (level : Nat) : BlockOut :=
  .heading (min level 3) (convertTextToRichText text)

/-- `_create_paragraph_block`. -/
def createParagraphBlock (text : List Char) : BlockOut :=
  .paragraph (convertTextToRichText text)

/-- `_create_code_block`: `language.lower() if language else "plain text"`. -/
def createCodeBlock (code : List Char) (language : List Char) : BlockOut :=
  .codeBlock ⟨code⟩ (if language.isEmpty then "plain text" else ⟨pyLower language⟩)

/-- `_create_quote_block`. -/
def createQuoteBlock (text : List Char) : BlockOut :=
  .quote (convertTextToRichText text)

/-- `_create_list_block` for `bulleted_list_item`: re-match the item text,
falling back to a paragraph. -/
def createBulletedListBlock (text : List Char) : BlockOut :=
  match matchBulletedItem text with
  | some item => .bulletedListItem (convertTextToRichText item)
  | none => createParagraphBlock text

/-- `_create_list_block` for `numbered_list_item`. -/
def createNumberedListBlock (text : List Char) : BlockOut :=
  match matchNumberedItem text with
  | some item => .numberedListItem (convertTextToRichText item)
  | none => createParagraphBlock text

/-- `_create_todo_block`. -/
def createTodoBlock (text : List Char) : BlockOut :=
  match matchTodoItem text with
  | some (checked, item) => .toDo (convertTextToRichText item) checked
  | none => createParagraphBlock text

/-- `_create_image_block`: external image with an optional caption. -/
def createImageBlock (url : List Char) (altText : List Char) : BlockOut :=
  .image ⟨url⟩ (if altText.isEmpty then none else some ⟨altText⟩)

/-- `ObsidianToNotionConverter._convert_section_to_block`: the ordered
dispatch over a (stripped) markdown section.  Note that the to-do branch is
checked after the bulleted-list branch, exactly as in the source. -/
def convertSectionToBlock (sec : List Char) : Option BlockOut :=
  let s := pyStrip sec
  if s.isEmpty then none
  else
    match matchHeading s with
    | some (level, text) => some (createHeadingBlock text level)
    | none =>
      match matchCodeBlock s with
      | some (lang, code) =>
          -- language = code_match.group(1) or 'plain text'
          some (createCodeBlock code (if lang.isEmpty then "plain text".toList else lang))
      | none =>
        if pyStartsWith s ['>'] then
          some (createQuoteBlock (stripQuoteMarks s))
        else if matchesBulleted s then
          some (createBulletedListBlock s)
        else if matchesNumbered s then
          some (createNumberedListBlock s)
        else if matchesTodo s then
          some (createTodoBlock s)
        else
          match searchImage s with
          | some (alt, url) => some (createImageBlock url alt)
          | none =>
              if pyStrip s = "---".toList ∨ pyStrip s = "***".toList ∨
                  pyStrip s = "___".toList then
                some .divider
              else
                some (createParagraphBlock s)

/-- `ObsidianToNotionConverter._convert_content_to_blocks`: split the
(stripped) content on blank lines, skip whitespace-only sections, convert
each remaining section.  The per-section `try/except` is dead in this model
because no modelled operation raises. -/
def convertContentToBlocks (content : List Char) : List BlockOut :=
  (pySplitBlank (pyStrip content)).foldr
    (fun sec acc =>
      if (pyStrip sec).isEmpty then acc
      else
        match convertSectionToBlock (pyStrip sec) with
        | some b => b :: acc
        | none => acc)
    []

/-! ## `converters/notion_to_obsidian.py` — `NotionToObsidianConverter`

Read-side Notion data as the converter consumes it.  A rich-text object is
a dict with `plain_text`, an `annotations` dict of independent booleans, an
optional `href`, and possibly `type == 'mention'` with a page mention. -/

/-- A read-side Notion rich-text object as consumed by
`_convert_rich_text` / `_extract_rich_text`. -/
structure RichTextIn where
  plainText : String
  boldF : Bool := false
  italicF : Bool := false
  strikethroughF : Bool := false
  codeF : Bool := false
  href : Option String := none
  /-- `text_obj.get('type') == 'mention'` with `mention.get('type') == 'page'`. -/
  mentionPage : Bool := false
  deriving DecidableEq, Repr

mutual
/-- A read-side Notion block, one constructor per key of
`self.block_converters` plus `other` for any type outside that table
(dispatched to `_convert_unsupported`).  `children` fields are present
exactly where the source reads `block.get('children', [])`; `rawPayload`
stands for the parts of the block dict the converter never reads. -/
inductive BIn where
  | paragraph (rich : List RichTextIn) (children : BInList)
  | heading1 (rich : List RichTextIn)
  | heading2 (rich : List RichTextIn)
  | heading3 (rich : List RichTextIn)
  | bulletedListItem (rich : List RichTextIn) (children : BInList)
  | numberedListItem (rich : List RichTextIn) (children : BInList)
  | toDo (rich : List RichTextIn) (checked : Bool) (children : BInList)
  | toggle (rich : List RichTextIn) (children : BInList)
  | quote (rich : List RichTextIn) (children : BInList)
  | codeBlock (rich : List RichTextIn) (language : String)
  | callout (rich : List RichTextIn) (iconEmoji : Option String) (children : BInList)
  | divider
  | image (srcType : String) (externalUrl : String) (fileUrl : String)
      (caption : List RichTextIn)
  | fileBlock (srcType : String) (externalUrl : String) (fileUrl : String)
      (caption : List RichTextIn)
  | bookmark (url : String) (caption : List RichTextIn)
  | linkPreview (url : String)
  | table (rawPayload : String)
  | columnList (children : BInList)
  | embed (url : String) (caption : List RichTextIn)
  | other (btype : String) (rawPayload : String)

/-- A list of read-side blocks (a separate inductive so that the mutual
conversion functions below are structurally recursive). -/
inductive BInList where
  | nil
  | cons (b : BIn) (bs : BInList)
end

/-- `NotionToObsidianConverter._convert_rich_text`: wrap each object's
plain text in markdown markers, innermost to outermost in the source's
order (bold, italic, strikethrough, code, link, page mention), and
concatenate. -/
def convertRichText (arr : List RichTextIn) : List Char :=
  (arr.map fun obj =>
    let tc := obj.plainText.toList
    let tc := if obj.boldF then ['*', '*'] ++ tc ++ ['*', '*'] else tc
    let tc := if obj.italicF then ['*'] ++ tc ++ ['*'] else tc
    let tc := if obj.strikethroughF then ['~', '~'] ++ tc ++ ['~', '~'] else tc
    let tc := if obj.codeF then ['`'] ++ tc ++ ['`'] else tc
    let tc :=
      match obj.href with
      | some url => ['['] ++ tc ++ [']', '('] ++ url.toList ++ [')']
      | none => tc
    if obj.mentionPage then ['[', '['] ++ tc ++ [']', ']'] else tc).flatten

/-- `NotionToObsidianConverter._extract_rich_text`: plain-text
concatenation. -/
def extractRichText (arr : List RichTextIn) : List Char :=
  (arr.map (·.plainText.toList)).flatten

/-- `"\n".join(f"{pre}{line}" for line in s.split("\n"))` — the child
indentation idiom of the list converters. -/
def prefixLines (pre : List Char) (s : List Char) : List Char :=
  pyJoin ['\n'] ((pySplitChar '\n' s).map (fun line => pre ++ line))

/-- `image` / `file` source URL: `external.url`, `file.url`, or `''`. -/
def blockUrl (srcType : String) (externalUrl fileUrl : String) : List Char :=
  if srcType = "external" then externalUrl.toList
  else if srcType = "file" then fileUrl.toList
  else []

/-- The last `/`-separated segment of a URL (`file_url.split('/')[-1]`). -/
def lastUrlSegment (url : List Char) : List Char :=
  (pySplitChar '/' url).getLastD []

mutual
/-- `NotionToObsidianConverter`'s per-block converters, dispatched as
`self.block_converters.get(block_type, self._convert_unsupported)`. -/
def convertBlock : BIn → List Char
  | .paragraph rich children =>
      let text := convertRichText rich
      match children with
      | .nil => text
      | .cons c cs =>
          let child := pyJoin ['\n', '\n'] (convertBlocksAcc (.cons c cs))
          if child.isEmpty then text else text ++ ['\n', '\n'] ++ child
  | .heading1 rich => ['#', ' '] ++ convertRichText rich
  | .heading2 rich => ['#', '#', ' '] ++ convertRichText rich
  | .heading3 rich => ['#', '#', '#', ' '] ++ convertRichText rich
  | .bulletedListItem rich children =>
      let res := ['-', ' '] ++ convertRichText rich
      match children with
      | .nil => res
      | .cons c cs =>
          let child := pyJoin ['\n', '\n'] (convertBlocksAcc (.cons c cs))
          if child.isEmpty then res
          else res ++ ['\n'] ++ prefixLines [' ', ' '] child
  | .numberedListItem rich children =>
      let res := ['1', '.', ' '] ++ convertRichText rich
      match children with
      | .nil => res
      | .cons c cs =>
          let child := pyJoin ['\n', '\n'] (convertBlocksAcc (.cons c cs))
          if child.isEmpty then res
          else res ++ ['\n'] ++ prefixLines [' ', ' ', ' '] child
  | .toDo rich checked children =>
      let box := if checked then "[x]".toList else "[ ]".toList
      let res := ['-', ' '] ++ box ++ [' '] ++ convertRichText rich
      match children with
      | .nil => res
      | .cons c cs =>
          let child := pyJoin ['\n', '\n'] (convertBlocksAcc (.cons c cs))
          if child.isEmpty then res
          else res ++ ['\n'] ++ prefixLines [' ', ' '] child
  | .toggle rich children =>
      let text := convertRichText rich
      let res := "<details>\n<summary>".toList ++ text ++ "</summary>\n".toList
      let res :=
        match children with
        | .nil => res
        | .cons c cs =>
            let child := pyJoin ['\n', '\n'] (convertBlocksAcc (.cons c cs))
            if child.isEmpty then res else res ++ ['\n'] ++ child ++ ['\n']
      res ++ "</details>".toList
  | .quote rich children =>
      let text := convertRichText rich
      let res := prefixLines ['>', ' '] text
      (match children with
      | .nil => res
      | .cons c cs =>
          let child := pyJoin ['\n', '\n'] (convertBlocksAcc (.cons c cs))
          if child.isEmpty then res
          else res ++ ['\n'] ++ prefixLines ['>', ' '] child)
  | .codeBlock rich language =>
      ['`', '`', '`'] ++ language.toList ++ ['\n'] ++ extractRichText rich ++
        ['\n', '`', '`', '`']
  | .callout rich iconEmoji children =>
      let text := convertRichText rich
      let iconText := (iconEmoji.getD "").toList
      let res := ['>', ' '] ++ iconText ++ [' '] ++ text
      (match children with
      | .nil => res
      | .cons c cs =>
          let child := pyJoin ['\n', '\n'] (convertBlocksAcc (.cons c cs))
          if child.isEmpty then res
          else res ++ ['\n'] ++ prefixLines ['>', ' '] child)
  | .divider => ['-', '-', '-']
  | .image srcType externalUrl fileUrl caption =>
      let url := blockUrl srcType externalUrl fileUrl
      let captionText := if caption.isEmpty then [] else extractRichText caption
      if captionText.isEmpty then "![](".toList ++ url ++ [')']
      else ['!', '['] ++ captionText ++ [']', '('] ++ url ++ [')']
  | .fileBlock srcType externalUrl fileUrl caption =>
      let url := blockUrl srcType externalUrl fileUrl
      let name :=
        if !caption.isEmpty then extractRichText caption
        else if !url.isEmpty then lastUrlSegment url
        else "file".toList
      ['['] ++ name ++ [']', '('] ++ url ++ [')']
  | .bookmark url caption =>
      if caption.isEmpty then ['<'] ++ url.toList ++ ['>']
      else ['['] ++ extractRichText caption ++ [']', '('] ++ url.toList ++ [')']
  | .linkPreview url => ['<'] ++ url.toList ++ ['>']
  | .table _ => "<!-- Table content - manual conversion required -->".toList
  | .columnList children =>
      (match children with
      | .nil => []
      | .cons c cs => pyJoin ['\n', '\n'] (convertBlocksAcc (.cons c cs)))
  | .embed url caption =>
      if caption.isEmpty then ['<'] ++ url.toList ++ ['>']
      else ['['] ++ extractRichText caption ++ [']', '('] ++ url.toList ++ [')']
  | .other btype _ =>
      "<!-- Unsupported block type: ".toList ++ btype.toList ++ " -->".toList
termination_by structural b => b

/-- The accumulation loop of `_convert_blocks`: convert each block and keep
the non-empty results (`if markdown: markdown_lines.append(markdown)`).
The per-block `try/except` is dead in this model because no modelled
operation raises. -/
def convertBlocksAcc : BInList → List (List Char)
  | .nil => []
  | .cons b bs =>
      let md := convertBlock b
      if md.isEmpty then convertBlocksAcc bs else md :: convertBlocksAcc bs
termination_by structural bs => bs

end

/-- `NotionToObsidianConverter._convert_blocks`:
`"\n\n".join(markdown_lines)` over the converted, non-empty block texts
(the recursive occurrences inside `convertBlock` use the same composition,
written inline so that the mutual recursion is structural). -/
def convertBlockList (bs : BInList) : List Char :=
  pyJoin ['\n', '\n'] (convertBlocksAcc bs)

/-- The content-level round trip `ToIR (FromIR ir)`: Notion blocks to
markdown (`NotionToObsidianConverter._convert_blocks`) and back to Notion
blocks (`ObsidianToNotionConverter._convert_content_to_blocks`). -/
def roundtripBlocks (bs : BInList) : List BlockOut :=
  convertContentToBlocks (convertBlockList bs)

/-! ## `conflict_resolver/resolver.py` — `ConflictResolver`

The module's imports are `asyncio`, `pathlib`, `typing`, `logging`,
`datetime`, `difflib` and `hashlib`.  It nevertheless evaluates
`aiofiles.open(...)` in `resolve_file`'s `obsidian_wins` branch, in
`_resolve_by_timestamp_file`, in `_handle_manual_resolution_file` and in
`_create_conflict_file`; since `aiofiles` is never imported there, every
such evaluation raises `NameError`, which the `try/except Exception`
wrappers in `resolve` / `resolve_file` catch. -/

/-- The ambient state a `resolve_file` call observes: the target file, the
two readings of `datetime.now()` it may take, the configured
`create_conflict_files` flag, and the module-external
`difflib.unified_diff` collaborator used by `_generate_diff`. -/
structure FileEnv where
  /-- `file_path.exists()`. -/
  fileExists : Bool
  /-- `file_path.stat().st_mtime` (integral-timestamp model). -/
  fileMtime : Int
  /-- `file_path.name`. -/
  fileName : String
  /-- `datetime.now().timestamp()` (integral-timestamp model). -/
  nowTs : Int
  /-- `datetime.now().isoformat()` and the `strftime` stamp derived from
      the same clock. -/
  nowIso : String
  /-- The content a successful read of `file_path` would return. -/
  existingContent : String
  /-- `config['conflict_resolution']['create_conflict_files']`. -/
  createConflictFiles : Bool
  /-- `difflib.unified_diff` composed as in `_generate_diff`
      (Python standard library, external to this repository). -/
  diffFn : String → String → String

/-- Evaluating `aiofiles.open(file_path, 'r', ...)` in
`conflict_resolver/resolver.py` raises `NameError` (unbound global
`aiofiles`) before any file content is read. -/
def aiofilesRead (_env : FileEnv) : Except PyErr String := .error .nameError

/-- A conflict file the resolver would persist:
`original_path.with_suffix(f'.conflict.{timestamp}.md')` plus its text. -/
structure ConflictArtifact where
  suffixStamp : String
  content : String
  deriving DecidableEq, Repr

/-- The conflict-file text assembled by `_create_conflict_file` (its
f-string template, including the trailing spaces of its second line);
`diff` is the `_generate_diff` output for the two versions. -/
def conflictFileContent (fileName nowIso existing new diff : String) : String :=
  "# Conflict Resolution Required\n        \n**File:** " ++ fileName ++
  "\n**Timestamp:** " ++ nowIso ++
  "\n\n## Existing Version (Obsidian)\n```\n" ++ existing ++
  "\n```\n\n## New Version (Notion)\n```\n" ++ new ++
  "\n```\n\n## Diff\n```diff\n" ++ diff ++
  "\n```\n\n## Instructions\n" ++
  "1. Review both versions above\n" ++
  "2. Edit the original file with your preferred content\n" ++
  "3. Delete this conflict file when resolved\n"

/-- `ConflictResolver._create_conflict_file`: the conflict path and content
are computed, then `aiofiles.open(conflict_path, 'w', ...)` raises
`NameError`, so no artifact is ever written. -/
def createConflictFile (env : FileEnv) (existing new : String) :
    Except PyErr ConflictArtifact :=
  let _content :=
    conflictFileContent env.fileName env.nowIso existing new (env.diffFn existing new)
  .error .nameError

/-- `ConflictResolver._create_conflict_markers`: Git-style merge of the two
versions. -/
def conflictMarkers (existing new : String) : String :=
  "<<<<<<< Obsidian (existing)\n" ++ existing ++ "\n=======\n" ++ new ++
  "\n>>>>>>> Notion (incoming)\n"

/-- `ConflictResolver._handle_manual_resolution_file`. -/
def handleManualResolutionFile (env : FileEnv) (newContent : String) :
    Except PyErr (String × Option ConflictArtifact) :=
  if !env.fileExists then .ok (newContent, none)
  else
    match aiofilesRead env with
    | .error e => .error e
    | .ok existing =>
        if existing = newContent then .ok (newContent, none)
        else if env.createConflictFiles then
          match createConflictFile env existing newContent with
          | .error e => .error e
          | .ok art => .ok (conflictMarkers existing newContent, some art)
        else .ok (conflictMarkers existing newContent, none)

/-- `ConflictResolver._resolve_by_timestamp_file`: prefer the existing
content when the file was modified within the last 60 seconds of the
current wall-clock time; neither `remote_modified_at` nor any remote
timestamp is consulted. -/
def resolveByTimestampFile (env : FileEnv) (newContent : String) :
    Except PyErr (String × Option ConflictArtifact) :=
  if !env.fileExists then .ok (newContent, none)
  else if env.nowTs - env.fileMtime < 60 then
    match aiofilesRead env with
    | .error e => .error e
    | .ok existing =>
        if existing ≠ newContent ∧ env.createConflictFiles then
          match createConflictFile env existing newContent with
          | .error e => .error e
          | .ok art => .ok (existing, some art)
        else .ok (existing, none)
  else .ok (newContent, none)

/-- `ConflictResolver.resolve_file`: strategy dispatch inside
`try/except Exception`, returning `new_content` for unknown strategies and
whenever any branch raises.  The second component is the conflict artifact
persisted by the call, if any. -/
def resolveFile (strategy : String) (env : FileEnv) (newContent : String) :
    String × Option ConflictArtifact :=
  let inner : Except PyErr (String × Option ConflictArtifact) :=
    if strategy = "manual" then handleManualResolutionFile env newContent
    else if strategy = "notion_wins" then .ok (newContent, none)
    else if strategy = "obsidian_wins" then
      if env.fileExists then
        match aiofilesRead env with
        | .error e => .error e
        | .ok existing => .ok (existing, none)
      else .ok (newContent, none)
    else if strategy = "newest_wins" then resolveByTimestampFile env newContent
    else .ok (newContent, none)
  match inner with
  | .ok r => r
  | .error _ => (newContent, none)

/-- `ConflictResolver._create_notion_conflict_file`: its body is `pass`. -/
def createNotionConflictFile : Except PyErr Unit := .ok ()

/-- `ConflictResolver._handle_manual_resolution_notion`. -/
def handleManualResolutionNotion {α : Type} (createFlag : Bool) (d : α) :
    Except PyErr α :=
  match (if createFlag then createNotionConflictFile else .ok ()) with
  | .error e => .error e
  | .ok _ => .ok d

/-- `ConflictResolver._get_obsidian_version`: the placeholder returns the
Notion data. -/
def getObsidianVersion {α : Type} (d : α) : Except PyErr α := .ok d

/-- `ConflictResolver._resolve_by_timestamp_notion`: "For now, return the
Notion data". -/
def resolveByTimestampNotion {α : Type} (d : α) : Except PyErr α := .ok d

/-- `ConflictResolver.resolve`: strategy dispatch inside
`try/except Exception`, returning `notion_data` for unknown strategies and
on any internal error.  The page payload is opaque to the function, hence
the type parameter. -/
def resolve {α : Type} (strategy : String) (createFlag : Bool) (d : α) : α :=
  let inner : Except PyErr α :=
    if strategy = "manual" then handleManualResolutionNotion createFlag d
    else if strategy = "notion_wins" then .ok d
    else if strategy = "obsidian_wins" then getObsidianVersion d
    else if strategy = "newest_wins" then resolveByTimestampNotion d
    else .ok d
  match inner with
  | .ok r => r
  | .error _ => d

/-! ## `obsidian_client/client.py` — `ObsidianSyncClient` -/

/-- The character class `[<>:"/\\|?*]` of `_sanitize_filename`. -/
def isForbiddenChar (c : Char) : Bool :=
  c = '<' || c = '>' || c = ':' || c = '"' || c = '/' || c = '\\' ||
    c = '|' || c = '?' || c = '*'

/-- `ObsidianSyncClient._sanitize_filename` on character lists:
replace each forbidden character with `'_'`, strip, truncate to 200
characters, fall back to `"Untitled"` when empty. -/
def sanitizeFilenameList (title : List Char) : List Char :=
  let replaced := title.map (fun c => if isForbiddenChar c then '_' else c)
  let stripped := pyStrip replaced
  let limited := if stripped.length > 200 then stripped.take 200 else stripped
  if limited.isEmpty then "Untitled".toList else limited

/-- `ObsidianSyncClient._sanitize_filename`. -/
def sanitizeFilename (title : String) : String := ⟨sanitizeFilenameList title.toList⟩

/-- `ObsidianSyncClient.get_file_path`: the path component below
`sync_path`, i.e. `f"{safe_title}.md"`; its stem is the sanitized title. -/
def getFilePath (title : String) : String := sanitizeFilename title ++ ".md"

/-! ## `notion_client/client.py` — `NotionSyncClient`

The Notion database is modelled as the list of its pages in creation
order; a page carries its id, its property dict (an association list with
Python `dict` semantics) and its content blocks.  Network transport is
assumed successful: the claims about this client concern what the write
operations do to the stored content. -/

/-- A property value, as far as the modelled operations distinguish them.
`titleProp` is a title-type property carrying its concatenated text. -/
inductive PropV where
  | titleProp (text : String)
  | richTextProp (text : String)
  | numberProp (n : Int)
  | checkboxProp (b : Bool)
  | multiSelectProp (names : List String)
  deriving DecidableEq, Repr

/-- A property dict. -/
abbrev Props := List (String × PropV)

/-- Dict lookup by key. -/
def lookupK : Props → String → Option PropV
  | [], _ => none
  | (k', v) :: rest, k => if k' = k then some v else lookupK rest k

/-- Python `d[k] = v`: replace in place if the key exists, else append. -/
def setKey : Props → String → PropV → Props
  | [], k, v => [(k, v)]
  | (k', v') :: rest, k, v =>
      if k' = k then (k', v) :: rest else (k', v') :: setKey rest k v

/-- Python `a.update(b)` (and the PATCH-merge of Notion property updates):
set each key of `b` in `a`, in order. -/
def updD : Props → Props → Props
  | a, [] => a
  | a, (k, v) :: bs => updD (setKey a k v) bs

/-- A stored Notion page. -/
structure PageRec where
  pid : String
  props : Props
  blocks : List BlockOut
  deriving DecidableEq, Repr

/-- The converted page data handed to `create_or_update_page`
(the dict built by `ObsidianToNotionConverter.convert`: `title`,
`properties`, `blocks`, `last_modified`). -/
structure PageData where
  title : String
  props : Props
  blocks : List BlockOut
  lastModified : Option Int := none

/-- The filter `{"property": "Name", "title": {"equals": title}}` of
`_search_page_in_database`. -/
def nameIs (p : PageRec) (title : String) : Bool :=
  match lookupK p.props "Name" with
  | some (.titleProp s) => s = title
  | _ => false

/-- `NotionSyncClient.get_page_by_title`: first page whose `Name` title
property equals the title (single-database model). -/
def getPageByTitle (db : List PageRec) (title : String) : Option PageRec :=
  db.find? (fun p => nameIs p title)

/-- `NotionSyncClient._create_page`: build a `Name` title property from the
data's title, merge in the data's properties, and append the new page with
the data's blocks. -/
def createPageRecord (db : List PageRec) (freshId : String) (d : PageData) :
    List PageRec :=
  db ++ [{ pid := freshId,
           props := updD [("Name", .titleProp d.title)] d.props,
           blocks := d.blocks }]

/-- `NotionSyncClient._update_page` plus `_replace_page_blocks`: PATCH the
properties of the page with this id and replace all of its blocks with the
new ones (the existing blocks are deleted and the new ones appended). -/
def updatePageById (db : List PageRec) (pid : String) (d : PageData) :
    List PageRec :=
  db.map (fun p =>
    if p.pid = pid then { p with props := updD p.props d.props, blocks := d.blocks }
    else p)

/-- `NotionSyncClient.create_or_update_page`: update the page found by
title, else create a new one. -/
def createOrUpdatePage (db : List PageRec) (freshId : String) (d : PageData) :
    List PageRec :=
  match getPageByTitle db d.title with
  | some p => updatePageById db p.pid d
  | none => createPageRecord db freshId d

/-! ## `fixed_sync_manager.py` — `FixedNotionClient` / `FixedSyncManager` -/

/-- `FixedNotionClient.create_page`: unconditionally POST a new page with a
`Name` title property and, when the content is not whitespace, one
paragraph block holding the first 2000 characters of the content. -/
def fixedCreatePage (db : List PageRec) (freshId : String)
    (title content : String) : List PageRec :=
  let blocks : List BlockOut :=
    if (pyStrip content.toList).isEmpty then []
    else [.paragraph [{ content := ⟨content.toList.take 2000⟩ }]]
  db ++ [{ pid := freshId, props := [("Name", .titleProp title)], blocks := blocks }]

/-- `FixedSyncManager._sync_obsidian_to_notion`: for every file (given as
its stem and content), create a page in Notion; `ids` supplies the fresh
page id per step.  `read_file` of `FixedObsidianClient` is total (it
returns `""` on error), and `create_page` is called unconditionally. -/
def fixedSyncObsidianToNotion (db : List PageRec)
    (files : List (String × String)) (ids : List String) : List PageRec :=
  match files, ids with
  | [], _ => db
  | _, [] => db
  | (stem, content) :: fs, i :: is =>
      fixedSyncObsidianToNotion (fixedCreatePage db i stem content) fs is

/-! ## `sync_manager.py` — `SyncManager`

The per-entity loops of `initial_sync`.  For the Notion → Obsidian pass,
the observable inputs of one iteration are whether the page dict has a
`'title'` key and whether the vault write succeeds; the conversion itself
is total on dict-shaped pages (every access uses `.get`).  Note that the
`except`-handler of the loop evaluates `page['title']` again while
formatting its log message. -/

/-- One page as seen by `SyncManager._sync_notion_to_obsidian`. -/
structure PageSim where
  /-- `page['title']` — `none` models a dict without that key. -/
  title : Option String
  /-- Whether `obsidian_client.write_file` raises for this page. -/
  writeFails : Bool := false

/-- One iteration body of `_sync_notion_to_obsidian` (lines 91-99):
convert, look up `page['title']`, write the file. -/
def syncPageBody (p : PageSim) : Except PyErr String :=
  match p.title with
  | none => .error .keyError
  | some t => if p.writeFails then .error .ioError else .ok t

/-- `SyncManager._sync_notion_to_obsidian`: the per-page loop.  The loop
body runs inside `try/except Exception`, but the handler's log message
re-evaluates `page['title']`, so a missing title raises `KeyError` out of
the handler and aborts the whole pass.  Returns the titles synced so far
and the error that ended the pass early, if any. -/
def syncNotionToObsidian (pages : List PageSim) :
    List String × Option PyErr :=
  match pages with
  | [] => ([], none)
  | p :: rest =>
      match syncPageBody p with
      | .ok t =>
          let (synced, err) := syncNotionToObsidian rest
          (t :: synced, err)
      | .error _ =>
          -- except Exception: self.logger.error(f"... {page['title']}: {e}")
          match p.title with
          | none => ([], some .keyError)
          | some _ => syncNotionToObsidian rest

/-- One file as seen by `SyncManager._sync_obsidian_to_notion`:
`file_path.name` plus whether any step of the body (read, convert, write)
raises for it. -/
structure FileSim where
  name : String
  bodyFails : Bool := false

/-- `SyncManager._sync_obsidian_to_notion`: the per-file loop.  Its
`except`-handler only formats `file_path.name`, which cannot raise, so a
failing file is always skipped and the pass continues. -/
def syncObsidianToNotion (files : List FileSim) :
    List String × Option PyErr :=
  match files with
  | [] => ([], none)
  | f :: rest =>
      if f.bodyFails then syncObsidianToNotion rest
      else
        let (synced, err) := syncObsidianToNotion rest
        (f.name :: synced, err)

/-! ## `watchers/notion_watcher.py` — `NotionWatcher` -/

/-- `self._poll_interval = 30  # seconds`. -/
def pollInterval : Nat := 30

/-- `NotionWatcher._check_for_changes`: its whole body is wrapped in
`try/except Exception`, so a transport failure during a cycle is logged
and the call returns normally.  The returned flag records whether the
cycle failed. -/
def checkForChanges (transportFails : Bool) : Bool := transportFails

/-- `NotionWatcher._poll_loop`: while running, run a cycle and sleep the
fixed `_poll_interval`; the `except` branch also sleeps the same fixed
`_poll_interval`.  `running i` is the `self._running` flag read before
cycle `i`, `fails i` whether cycle `i` hits a transport failure.  Returns,
per executed cycle, whether it failed and how long the loop then slept. -/
def pollLoop (fuel : Nat) (running : Nat → Bool) (fails : Nat → Bool)
    (i : Nat) : List (Bool × Nat) :=
  match fuel with
  | 0 => []
  | fuel + 1 =>
      if running i then
        (checkForChanges (fails i), pollInterval) :: pollLoop fuel running fails (i + 1)
      else []

/-- The sleep the loop performs after a cycle, as a function of the number
of consecutive failed cycles just seen: both branches of `_poll_loop`
sleep `self._poll_interval`, so it is the constant 30. -/
def retrySleep (_consecutiveFailures : Nat) : Nat := pollInterval

/-- Rendering of the specification's "retries with exponential backoff
capped at a maximum interval" for a delay schedule `d`: an initial delay
below the cap, a growth factor of at least 2, and
`d k = min (init · factor ^ k) cap`. -/
def SpecExpBackoffCapped (d : Nat → Nat) : Prop :=
  ∃ init factor cap, 2 ≤ factor ∧ init < cap ∧
    ∀ k, d k = min (init * factor ^ k) cap

/-! ## Theorems settling the claims -/

/-- C9: `ConflictResolver.resolve` and `ConflictResolver.resolve_file`
never raise: for every input — in particular for unrecognized strategy
strings, and whenever any internal error occurs during resolution — they
return the incoming version (`notion_data`, respectively `new_content`)
unchanged.  In fact every branch returns the incoming version: the
notion-side helpers are placeholders returning their argument, and every
file-side branch that would read the existing file fails on the unimported
`aiofiles` and falls back to `new_content` in the `except` handler. -/
theorem c9_resolver_returns_incoming :
    ∀ (strategy : String) (createFlag : Bool) (d : String) (env : FileEnv)
      (newContent : String),
      resolve strategy createFlag d = d ∧
      (resolveFile strategy env newContent).1 = newContent := by
  intro strategy createFlag d env newContent
  constructor
  · unfold resolve handleManualResolutionNotion createNotionConflictFile
      getObsidianVersion resolveByTimestampNotion
    split_ifs <;> rfl
  · unfold resolveFile handleManualResolutionFile resolveByTimestampFile
      aiofilesRead
    split_ifs <;> rfl

/-- C2, counterexample: under `newest_wins` the resolver does not select
the newer side's version.  Concrete instance: the local file was modified
at time 100 and the remote page at time 40 (the local side is strictly
newer), the call happens at time 200 (outside the 60-second recency
window), the file exists with content `"local version"` and the incoming
remote content is `"remote version"`.  The claim selects the newer, local
side (`"local version"`); the code returns the remote content — the remote
timestamp is not even an input of `_resolve_by_timestamp_file`. -/
theorem c2_counterexample :
    resolveFile "newest_wins"
        { fileExists := true, fileMtime := 100, fileName := "Note.md",
          nowTs := 200, nowIso := "2024-01-01T00:00:00",
          existingContent := "local version", createConflictFiles := true,
          diffFn := fun _ _ => "" } "remote version" =
      ("remote version", none) ∧
    ("remote version" : String) ≠ "local version" := by
  constructor
  · rfl
  · decide

/-- C2, amended: `newest_wins` never compares `remote_modified_at` with
`local_modified_at`.  The notion-side resolver returns the remote data
unconditionally, and the file-side resolver also always returns the
incoming remote content: outside the 60-second window it does so directly,
and inside the window the read of the existing file raises `NameError`
(`aiofiles` is unbound in the module) which the `except` handler turns
into `new_content`.  The documented tie-break "remote wins" therefore
holds, but only degenerately: the remote side always wins. -/
theorem c2_newest_wins_always_remote :
    ∀ (env : FileEnv) (newContent : String) (createFlag : Bool) (d : String),
      resolveFile "newest_wins" env newContent = (newContent, none) ∧
      resolve "newest_wins" createFlag d = d := by
  intro env newContent createFlag d
  constructor
  · unfold resolveFile resolveByTimestampFile aiofilesRead
    split_ifs <;> first | rfl | simp_all
  · unfold resolve handleManualResolutionNotion createNotionConflictFile
      getObsidianVersion resolveByTimestampNotion
    split_ifs <;> rfl

/-- C5, counterexample: under the `manual` policy no conflict artifact is
ever materialized — even for a true conflict (file exists, contents
differ, `create_conflict_files` enabled) the artifact component is `none`,
because reading the existing file raises `NameError` before
`_create_conflict_file` is reached; and the artifact text the writer would
produce embeds the invocation timestamp, so two runs at different clock
readings would not produce identical artifact content. -/
theorem c5_counterexample :
    (resolveFile "manual"
        { fileExists := true, fileMtime := 100, fileName := "Note.md",
          nowTs := 130, nowIso := "2024-01-01T00:00:00",
          existingContent := "local version", createConflictFiles := true,
          diffFn := fun _ _ => "" } "remote version").2 = none ∧
    conflictFileContent "Note.md" "2024-01-01T00:00:00" "local version"
        "remote version" "" ≠
      conflictFileContent "Note.md" "2024-01-01T00:00:01" "local version"
        "remote version" "" := by
  constructor
  · rfl
  · decide

/-- C5, amended: resolution is deterministic as a function of its inputs —
under the `manual` policy the returned winner does not depend on the clock
readings at all, and the resolver materializes no conflict artifact (the
would-be artifact embeds `datetime.now()` in its name and content, but its
write is never reached because the read of the existing file fails on the
unimported `aiofiles`). -/
theorem c5_manual_clock_independent :
    ∀ (env : FileEnv) (newContent : String) (t1 t2 : Int) (iso1 iso2 : String),
      resolveFile "manual" { env with nowTs := t1, nowIso := iso1 } newContent =
        resolveFile "manual" { env with nowTs := t2, nowIso := iso2 } newContent ∧
      (resolveFile "manual" env newContent).2 = none := by
  intro env newContent t1 t2 iso1 iso2
  constructor
  · unfold resolveFile handleManualResolutionFile aiofilesRead
    split_ifs <;> first | rfl | simp_all
  · unfold resolveFile handleManualResolutionFile aiofilesRead
    split_ifs <;> first | rfl | simp_all

/-- C6, counterexample: inline-span parsing is not an interval merge.  For
the input `"**a** b"` — whose correct run list is a bold run `"a"`
followed by a plain run `" b"` — `_convert_text_to_rich_text` produces a
single run with content `"a b"` and `bold = true`, flagging the unbolded
`" b"` as bold. -/
theorem c6_counterexample :
    convertTextToRichText "**a** b".toList =
      [{ content := "a b", boldF := true }] ∧
    convertTextToRichText "**a** b".toList ≠
      [{ content := "a", boldF := true }, { content := " b" }] := by
  constructor
  · rfl
  · decide

/-- C6, amended: `_convert_text_to_rich_text` performs sequential regex
substitution and always emits exactly one rich-text run, whose annotation
flags are set when the corresponding markers occur anywhere in the text —
it never produces the boundary-event run list of an interval merge, so any
text mixing formatted and unformatted segments is mis-attributed. -/
theorem c6_single_run :
    ∀ text : List Char, (convertTextToRichText text).length = 1 :=
  fun _ => rfl

/-- C3, counterexample: content is silently dropped.  A block of an
unsupported type converts to a placeholder comment that names only the
type: the block's payload does not occur in the output, and two blocks
with different payloads produce the same output.  On the other side,
`_convert_text_to_rich_text` keeps only the first markdown link's text:
`"see [a](u) tail"` becomes the single run `"a"`, dropping the
surrounding text. -/
theorem c3_counterexample :
    convertBlockList (.cons (.other "custom_widget" "hello payload") .nil) =
      "<!-- Unsupported block type: custom_widget -->".toList ∧
    containsSub ("<!-- Unsupported block type: custom_widget -->".toList)
      ("hello payload".toList) = false ∧
    convertBlockList (.cons (.other "custom_widget" "hello payload") .nil) =
      convertBlockList (.cons (.other "custom_widget" "different payload") .nil) ∧
    convertTextToRichText "see [a](u) tail".toList =
      [{ content := "a", href := some "u" }] := by
  refine ⟨rfl, by decide, rfl, rfl⟩

/-- C3, amended: the converters are total on the modelled inputs, and a
block whose type is outside the converter table yields the placeholder
comment naming its type rather than raising; conversion of the remaining
blocks in the list continues.  But the placeholder carries only the block
type — the original payload is dropped — and the rich-text link conversion
truncates text around the first link, so content can be silently lost. -/
theorem c3_unsupported_placeholder :
    ∀ (btype payload : String) (rest : BInList),
      convertBlocksAcc (.cons (.other btype payload) rest) =
        ("<!-- Unsupported block type: ".toList ++ btype.toList ++ " -->".toList)
          :: convertBlocksAcc rest := by
  intro btype payload rest
  show (let md := convertBlock (.other btype payload);
        if md.isEmpty then convertBlocksAcc rest else md :: convertBlocksAcc rest) = _
  simp only [convertBlock, List.isEmpty_eq_true]
  rfl

/-- C7: the claim is right and the code has a slip.  The per-page loop of
`SyncManager._sync_notion_to_obsidian` wraps each page in
`try/except Exception` precisely to isolate per-entity failures, but the
handler's log message evaluates `page['title']` again, so a page dict
without a `'title'` key raises `KeyError` out of the handler and aborts
the rest of the pass.  Failing input: `[{'id': …}, {'title': 'B', …}]` —
the pass ends with `KeyError` and page `B` is never attempted, although a
write failure on a titled page is isolated as intended and the
Obsidian → Notion pass always continues past failing files. -/
theorem c7_failing_input :
    syncNotionToObsidian [{ title := none }, { title := some "B" }] =
      ([], some .keyError) ∧
    syncNotionToObsidian [{ title := some "B" }] = (["B"], none) ∧
    syncNotionToObsidian
        [{ title := some "A", writeFails := true }, { title := some "B" }] =
      (["B"], none) ∧
    syncObsidianToNotion [{ name := "f1", bodyFails := true }, { name := "f2" }] =
      (["f2"], none) := by
  refine ⟨rfl, rfl, rfl, rfl⟩

/-- C8, counterexample: the poller's retry delay is not exponential
backoff capped at a maximum interval.  Both branches of `_poll_loop` sleep
the fixed `_poll_interval` (30 s), so the delay after `k` consecutive
failures is the constant 30, which no schedule
`min (init · factor ^ k) cap` with `factor ≥ 2` and `init < cap` can
realize (such a schedule strictly grows from `init` at `k = 0` to a larger
value at `k = 1`). -/
theorem c8_counterexample : ¬ SpecExpBackoffCapped retrySleep := by
  rintro ⟨init, factor, cap, hf, hic, h⟩
  have h0 := h 0
  have h1 := h 1
  simp only [retrySleep, pollInterval, pow_zero, mul_one, pow_one] at h0 h1
  have hinit : init = 30 := by omega
  subst hinit
  have h60 : 60 ≤ 30 * factor := by
    have := Nat.mul_le_mul (Nat.le_refl 30) hf
    omega
  omega

/-- C8, amended: on a failed cycle the poller sleeps the fixed 30-second
poll interval and continues; a single failed cycle never terminates the
polling loop (indeed `_check_for_changes` catches transport errors
itself): while the running flag stays set, every cycle executes and every
sleep equals `_poll_interval`, independently of which cycles fail. -/
theorem c8_fixed_interval_continues :
    ∀ (n : Nat) (running fails : Nat → Bool) (i : Nat),
      (∀ j, running j = true) →
      (pollLoop n running fails i).map (fun c => c.2) =
        List.replicate n pollInterval := by
  intro n running fails i h
  induction n generalizing i with
  | zero => rfl
  | succ n ih =>
      simp [pollLoop, h i, ih]
      rfl

/-- C8, witness for `c8_fixed_interval_continues` at three cycles with the
second one failing. -/
theorem c8_witness :
    (pollLoop 3 (fun _ => true) (fun j => decide (j = 1)) 0).map (fun c => c.2) =
      List.replicate 3 pollInterval :=
  c8_fixed_interval_continues 3 (fun _ => true) (fun j => decide (j = 1)) 0
    (fun _ => rfl)

/-! ### Supporting lemmas about `_sanitize_filename` -/

/-- Membership survives `str.strip()`. -/
theorem mem_of_mem_pyStrip {c : Char} {l : List Char} (h : c ∈ pyStrip l) :
    c ∈ l := by
  unfold pyStrip pyRStrip pyLStrip at h
  have h1 := List.mem_reverse.mp h
  have h2 := (List.dropWhile_sublist isPyWs).subset h1
  have h3 := List.mem_reverse.mp h2
  exact (List.dropWhile_sublist isPyWs).subset h3

/-- After the character substitution of `_sanitize_filename`, no forbidden
character remains. -/
theorem forbidden_free_after_replace {t : List Char} {c : Char}
    (h : c ∈ t.map (fun c => if isForbiddenChar c then '_' else c)) :
    isForbiddenChar c = false := by
  rcases List.mem_map.mp h with ⟨a, _, rfl⟩
  by_cases ha : isForbiddenChar a
  · simp only [ha, if_true]
    decide
  · simp only [ha, if_false]
    simpa using ha

/-- C10: for every title, the filename stem produced by
`ObsidianSyncClient.get_file_path` (the sanitized title) is non-empty —
falling back to `"Untitled"` when stripping removes everything — contains
none of the characters `< > : " / \ | ? *`, and is at most 200 characters
long; and the mapping is not injective: the distinct titles `"a/b"` and
`"a_b"` map to the same path. -/
theorem c10_file_path_properties :
    (∀ t : String,
        sanitizeFilenameList t.toList ≠ [] ∧
        (sanitizeFilenameList t.toList).length ≤ 200 ∧
        ∀ c ∈ sanitizeFilenameList t.toList, isForbiddenChar c = false) ∧
    getFilePath "a/b" = getFilePath "a_b" ∧ ("a/b" : String) ≠ "a_b" ∧
    sanitizeFilename "   " = "Untitled" := by
  refine ⟨?_, by decide, by decide, by decide⟩
  intro t
  unfold sanitizeFilenameList
  set stripped :=
    pyStrip (t.toList.map (fun c => if isForbiddenChar c then '_' else c))
    with hstr
  have hforb : ∀ c ∈ stripped, isForbiddenChar c = false := fun c hc =>
    forbidden_free_after_replace (mem_of_mem_pyStrip hc)
  set limited := (if stripped.length > 200 then stripped.take 200 else stripped)
    with hlim
  have hlen : limited.length ≤ 200 := by
    rw [hlim]
    split
    · rw [List.length_take]; omega
    · omega
  have hmem : ∀ c ∈ limited, isForbiddenChar c = false := by
    intro c hc
    rw [hlim] at hc
    split at hc
    · exact hforb c (List.take_subset 200 stripped hc)
    · exact hforb c hc
  cases hemp : limited.isEmpty with
  | true =>
      simp only [hemp, if_true]
      refine ⟨by decide, by decide, by decide⟩
  | false =>
      have hne : limited ≠ [] := by
        intro h
        rw [h] at hemp
        simp at hemp
      simp only [hemp, Bool.false_eq_true, if_false]
      exact ⟨hne, hlen, hmem⟩

/-! ### Supporting lemmas about property dicts and page lookup -/

theorem lookupK_setKey_self (a : Props) (k : String) (v : PropV) :
    lookupK (setKey a k v) k = some v := by
  induction a with
  | nil => simp [setKey, lookupK]
  | cons kv rest ih =>
      obtain ⟨k0, v0⟩ := kv
      by_cases h : k0 = k
      · simp [setKey, lookupK, h]
      · simp [setKey, lookupK, h, ih]

theorem lookupK_setKey_ne (a : Props) {k' k : String} (v : PropV) (h : k' ≠ k) :
    lookupK (setKey a k' v) k = lookupK a k := by
  induction a with
  | nil => simp [setKey, lookupK, h]
  | cons kv rest ih =>
      obtain ⟨k0, v0⟩ := kv
      by_cases h0 : k0 = k'
      · subst h0
        simp [setKey, lookupK, h]
      · simp only [setKey, if_neg h0]
        by_cases h1 : k0 = k
        · simp [lookupK, h1]
        · simp [lookupK, h1, ih]

theorem lookupK_updD_not_mem (b : Props) :
    ∀ (a : Props) {k : String}, (∀ kv ∈ b, kv.1 ≠ k) →
      lookupK (updD a b) k = lookupK a k := by
  induction b with
  | nil => intro a k _; rfl
  | cons kv bs ih =>
      intro a k h
      obtain ⟨k0, v0⟩ := kv
      simp only [updD]
      rw [ih _ (fun kv' hkv' => h kv' (List.mem_cons_of_mem _ hkv'))]
      exact lookupK_setKey_ne a v0 (h (k0, v0) (List.mem_cons_self _ _))

theorem setKey_eq_of_lookup (a : Props) {k : String} {v : PropV}
    (h : lookupK a k = some v) : setKey a k v = a := by
  induction a with
  | nil => simp [lookupK] at h
  | cons kv rest ih =>
      obtain ⟨k0, v0⟩ := kv
      by_cases h0 : k0 = k
      · simp only [lookupK, if_pos h0] at h
        simp only [setKey, if_pos h0]
        injection h with h
        rw [h]
      · simp only [lookupK, if_neg h0] at h
        simp [setKey, h0, ih h]

/-- Python `dict.update` is idempotent: updating twice with the same dict
(whose keys are distinct, as they are in a Python dict) equals updating
once. -/
theorem updD_idem (b : Props) (hb : (b.map Prod.fst).Nodup) :
    ∀ a, updD (updD a b) b = updD a b := by
  induction b with
  | nil => intro a; rfl
  | cons kv bs ih =>
      intro a
      obtain ⟨k, v⟩ := kv
      simp only [List.map_cons, List.nodup_cons] at hb
      have hnotmem : ∀ kv' ∈ bs, kv'.1 ≠ k := by
        intro kv' hkv' heq
        exact hb.1 (heq ▸ List.mem_map_of_mem Prod.fst hkv')
      simp only [updD]
      have hl : lookupK (updD (setKey a k v) bs) k = some v := by
        rw [lookupK_updD_not_mem bs _ hnotmem]
        exact lookupK_setKey_self a k v
      rw [setKey_eq_of_lookup _ hl]
      exact ih hb.2 (setKey a k v)

theorem find?_map_congr {α : Type} (f : α → α) (p : α → Bool) :
    ∀ l : List α, (∀ x ∈ l, p (f x) = p x) →
      (l.map f).find? p = (l.find? p).map f := by
  intro l
  induction l with
  | nil => intro _; rfl
  | cons a as ih =>
      intro h
      simp only [List.map_cons]
      cases hpa : p a with
      | true =>
          rw [List.find?_cons_of_pos _ (by rw [h a (List.mem_cons_self a as)]; exact hpa),
            List.find?_cons_of_pos _ hpa]
          rfl
      | false =>
          rw [List.find?_cons_of_neg _ (by rw [h a (List.mem_cons_self a as)]; simp [hpa]),
            List.find?_cons_of_neg _ (by simp [hpa])]
          exact ih (fun x hx => h x (List.mem_cons_of_mem _ hx))

theorem find?_append_none {α : Type} (p : α → Bool) :
    ∀ l1 l2 : List α, (∀ x ∈ l1, p x = false) →
      (l1 ++ l2).find? p = l2.find? p := by
  intro l1 l2
  induction l1 with
  | nil => intro _; rfl
  | cons a as ih =>
      intro h
      rw [List.cons_append,
        List.find?_cons_of_neg _ (by simp [h a (List.mem_cons_self a as)])]
      exact ih (fun x hx => h x (List.mem_cons_of_mem _ hx))

/-- C4, counterexample: apply is not idempotent.  The apply path of
`FixedSyncManager._sync_obsidian_to_notion` calls
`FixedNotionClient.create_page` unconditionally, so running the same
one-file pass twice creates a duplicate page: the database holds one page
after the first apply and two pages after the second — an observable
second change (the database's content fingerprint differs). -/
theorem c4_counterexample :
    (fixedSyncObsidianToNotion
        (fixedSyncObsidianToNotion [] [("T", "c")] ["id1"])
        [("T", "c")] ["id2"]).length = 2 ∧
    (fixedSyncObsidianToNotion [] [("T", "c")] ["id1"]).length = 1 ∧
    fixedSyncObsidianToNotion
        (fixedSyncObsidianToNotion [] [("T", "c")] ["id1"])
        [("T", "c")] ["id2"] ≠
      fixedSyncObsidianToNotion [] [("T", "c")] ["id1"] := by
  refine ⟨rfl, rfl, by decide⟩

/-- C4, amended: apply is not idempotent in general — the fixed sync
manager's pass duplicates pages (see the counterexample) — but
`NotionSyncClient.create_or_update_page` is idempotent at the content
level: when the converted data's properties do not override the `Name`
title property and page ids are distinct, a second apply with the same
data finds the page written by the first apply and overwrites it with
identical properties and blocks, leaving the database unchanged.  (The
second apply still re-deletes and re-writes all blocks; only the resulting
content is unchanged.) -/
theorem c4_create_or_update_idempotent :
    ∀ (db : List PageRec) (d : PageData) (id1 id2 : String),
      (d.props.map Prod.fst).Nodup →
      (∀ kv ∈ d.props, kv.1 ≠ "Name") →
      (db.map PageRec.pid).Nodup →
      id1 ∉ db.map PageRec.pid →
      createOrUpdatePage (createOrUpdatePage db id1 d) id2 d =
        createOrUpdatePage db id1 d := by
  intro db d id1 id2 hkeys hname hids hid1
  cases hfind : getPageByTitle db d.title with
  | some P =>
      have hPmem : P ∈ db := List.mem_of_find?_eq_some hfind
      have e1 : createOrUpdatePage db id1 d = updatePageById db P.pid d := by
        unfold createOrUpdatePage
        rw [hfind]
      set f : PageRec → PageRec := fun p =>
        if p.pid = P.pid then { p with props := updD p.props d.props, blocks := d.blocks }
        else p with hf
      have hmapf : updatePageById db P.pid d = db.map f := rfl
      have hfpos : ∀ q : PageRec, q.pid = P.pid →
          f q = { q with props := updD q.props d.props, blocks := d.blocks } :=
        fun q h => by rw [hf]; exact if_pos h
      have hfneg : ∀ q : PageRec, ¬ q.pid = P.pid → f q = q :=
        fun q h => by rw [hf]; exact if_neg h
      have hpres : ∀ q ∈ db, nameIs (f q) d.title = nameIs q d.title := by
        intro q hq
        by_cases hpid : q.pid = P.pid
        · rw [hfpos q hpid]
          unfold nameIs
          dsimp only
          rw [lookupK_updD_not_mem d.props _ hname]
        · rw [hfneg q hpid]
      have hfind2 : getPageByTitle (db.map f) d.title = some (f P) := by
        unfold getPageByTitle at hfind ⊢
        rw [find?_map_congr f _ db hpres, hfind]
        rfl
      have hfPpid : (f P).pid = P.pid := by
        rw [hf]
        simp
      have e2 : createOrUpdatePage (updatePageById db P.pid d) id2 d =
          updatePageById (db.map f) P.pid d := by
        unfold createOrUpdatePage
        rw [hmapf, hfind2]
        show updatePageById (db.map f) (f P).pid d = updatePageById (db.map f) P.pid d
        rw [hfPpid]
      rw [e1, e2, hmapf]
      show (db.map f).map f = db.map f
      rw [List.map_map]
      apply List.map_congr_left
      intro q _
      by_cases hpid : q.pid = P.pid
      · show f (f q) = f q
        rw [hfpos q hpid,
          hfpos { q with props := updD q.props d.props, blocks := d.blocks } hpid]
        dsimp only
        rw [updD_idem d.props hkeys]
      · show f (f q) = f q
        rw [hfneg q hpid, hfneg q hpid]
  | none =>
      have hallfalse : ∀ q ∈ db, nameIs q d.title = false := by
        intro q hq
        have h := List.find?_eq_none.mp hfind q hq
        simpa using h
      have e1 : createOrUpdatePage db id1 d = createPageRecord db id1 d := by
        unfold createOrUpdatePage
        rw [hfind]
      set newP : PageRec :=
        { pid := id1, props := updD [("Name", .titleProp d.title)] d.props,
          blocks := d.blocks } with hnewP
      have happend : createPageRecord db id1 d = db ++ [newP] := rfl
      have hnamenew : nameIs newP d.title = true := by
        rw [hnewP]
        unfold nameIs
        rw [lookupK_updD_not_mem d.props _ hname]
        simp [lookupK]
      have hfind2 : getPageByTitle (db ++ [newP]) d.title = some newP := by
        unfold getPageByTitle
        rw [find?_append_none _ db [newP] hallfalse]
        exact List.find?_cons_of_pos [] hnamenew
      have e2 : createOrUpdatePage (createPageRecord db id1 d) id2 d =
          updatePageById (db ++ [newP]) newP.pid d := by
        unfold createOrUpdatePage
        rw [happend, hfind2]
      rw [e1, e2, happend]
      have hnewPpid : newP.pid = id1 := by rw [hnewP]
      unfold updatePageById
      rw [List.map_append]
      have hdb : db.map (fun p =>
          if p.pid = newP.pid then { p with props := updD p.props d.props, blocks := d.blocks }
          else p) = db := by
        have hpt : ∀ q ∈ db, (fun p =>
            if p.pid = newP.pid then { p with props := updD p.props d.props, blocks := d.blocks }
            else p) q = id q := by
          intro q hq
          have : ¬ q.pid = newP.pid := by
            rw [hnewPpid]
            intro hcon
            exact hid1 (hcon ▸ List.mem_map_of_mem PageRec.pid hq)
          simp only [if_neg this, id]
        rw [List.map_congr_left hpt, List.map_id]
      rw [hdb]
      have hupd :
          ({ newP with props := updD newP.props d.props, blocks := d.blocks } :
            PageRec) = newP := by
        rw [hnewP]
        dsimp only
        rw [updD_idem d.props hkeys]
      have hone : [newP].map (fun p =>
          if p.pid = newP.pid then { p with props := updD p.props d.props, blocks := d.blocks }
          else p) = [newP] := by
        simp only [List.map_cons, List.map_nil]
        simp [hupd]
      rw [hone]

/-- C4, witness for `c4_create_or_update_idempotent`: an empty database
and data with a single non-`Name` property. -/
theorem c4_witness :
    createOrUpdatePage
        (createOrUpdatePage [] "id1"
          { title := "T", props := [("X", .richTextProp "v")],
            blocks := [.divider], lastModified := none })
        "id2"
        { title := "T", props := [("X", .richTextProp "v")],
          blocks := [.divider], lastModified := none } =
      createOrUpdatePage [] "id1"
        { title := "T", props := [("X", .richTextProp "v")],
          blocks := [.divider], lastModified := none } :=
  c4_create_or_update_idempotent [] _ "id1" "id2" (by decide) (by decide)
    (by decide) (by decide)

/-- C1, counterexample: the round trip `ToIR (FromIR ir)` is not the
identity, and a table does not come back as an unsupported placeholder
preserving its raw payload.  A paragraph whose text is `"1. hello"` — a
supported construct — comes back as a `numbered_list_item` block with text
`"hello"` (silently mutated); and a table converts to the fixed comment
`"<!-- Table content - manual conversion required -->"`, which re-imports
as a paragraph block that is identical for two tables with different
payloads, so the payload is lost. -/
theorem c1_counterexample :
    roundtripBlocks (.cons (.paragraph [{ plainText := "1. hello" }] .nil) .nil) =
      [.numberedListItem [{ content := "hello" }]] ∧
    roundtripBlocks (.cons (.table "| a | b |") .nil) =
      roundtripBlocks (.cons (.table "| c | d |") .nil) ∧
    roundtripBlocks (.cons (.table "| a | b |") .nil) =
      [.paragraph
        [{ content := "<!-- Table content - manual conversion required -->" }]] ∧
    ("| a | b |" : String) ≠ "| c | d |" := by
  refine ⟨rfl, rfl, rfl, by decide⟩

/-- C1, amended: the converters satisfy no round-trip law.  What does
hold: a table always round-trips to a single paragraph block holding the
fixed placeholder comment — independent of the table's payload, so the
construct is mutated (paragraph, not an `unsupported` placeholder) and the
payload is dropped; and a paragraph of plain text with no
markdown-significant characters round-trips to a paragraph block with the
same text content (in the write-side rich-text shape, so even then the
dict shapes differ). -/
theorem c1_roundtrip_behavior :
    (∀ payload : String,
        roundtripBlocks (.cons (.table payload) .nil) =
          [.paragraph
            [{ content := "<!-- Table content - manual conversion required -->" }]]) ∧
    roundtripBlocks (.cons (.paragraph [{ plainText := "hello world" }] .nil) .nil) =
      [.paragraph [{ content := "hello world" }]] :=
  ⟨fun _ => rfl, rfl⟩

end NOSync

